import Mathlib

/-!
Shallow embedding of the resilient data-access layer of the
`entremotivator/testerlive` repository, together with proofs settling the
frozen claims about it.

The embedded code lives in two revisions of the dashboard:
* `src/551_🤓_Homepage.py` — the enhanced revision: `CACHE_TTL`, `MemoryCache`,
  `EnhancedAPIUsageManager.check_rate_limit` / `track_api_call`,
  `EnhancedRentCastManager._make_request_with_retry` / `get_property_details`;
* `src/1_🤓_Homepage.py` — the earlier revision: `_generate_cache_key` and the
  module-level `fetch_property_data`.

Modelling conventions:
* wall-clock time (`time.time()`) is a rational number threaded explicitly;
* Python dicts are association lists over `String` keys (one entry per key,
  maintained by `assocSet`); `collections.deque` is a `List ℚ` whose head is
  the front of the deque;
* the network is an oracle `att : Nat → Attempt α` giving, for each attempt
  index, how long the HTTP call took and what it produced; `random.uniform`
  jitter is an oracle `jit : Nat → ℚ`;
* the Supabase `portal_api_usage` insert performed by `track_api_call` is an
  append to the `usage` ledger of the `World` state;
* observable actions of a run (rate-limit checks, HTTP attempts, sleeps,
  usage inserts) are collected in an `Event` trace, in program order.
-/

namespace TesterLive

/-! ### Association lists standing for Python dicts -/

/-- Replace the value stored for key `k` (Python `d[k] = v`): overwrite the
existing entry, or append a new one. -/
def assocSet {β : Type} (l : List (String × β)) (k : String) (v : β) :
    List (String × β) :=
  match l with
  | [] => [(k, v)]
  | (k0, v0) :: t => if k0 == k then (k, v) :: t else (k0, v0) :: assocSet t k v

/-- Read-modify-write of a `defaultdict` entry: apply `f` to the stored value,
or to the default `d` when the key is absent. -/
def assocUpdate {β : Type} (l : List (String × β)) (k : String) (d : β)
    (f : β → β) : List (String × β) :=
  assocSet l k (f ((l.lookup k).getD d))

/-- Substring test on character lists, mirroring Python's `pattern in key`. -/
def charsContain (hay pat : List Char) : Bool :=
  match hay with
  | [] => pat.isEmpty
  | _ :: t => pat.isPrefixOf hay || charsContain t pat

/-- Substring test on strings (`pattern in key` in Python). -/
def strContain (hay pat : String) : Bool :=
  charsContain hay.toList pat.toList

/-- Python `int()` applied to a nonnegative-or-negative rational: truncation
toward zero. -/
def pyInt (q : ℚ) : ℤ :=
  if q < 0 then -((-q).floor) else q.floor

/-! ### Constants and `MemoryCache` (src/551_🤓_Homepage.py, lines 31-103) -/

/-- The `CACHE_TTL` dict (seconds per category), lines 31-37. -/
def CACHE_TTL : List (String × ℚ) :=
  [("config", 3600), ("property_data", 7200), ("user_data", 1800),
   ("api_usage", 300), ("market_data", 14400)]

/-- TTL used by `MemoryCache.get`: `CACHE_TTL.get(category, 3600)`, line 73. -/
def lookupTtl (category : String) : ℚ :=
  (CACHE_TTL.lookup category).getD 3600

/-- The `CacheStats` dataclass, lines 45-53. -/
structure CacheStats where
  hits : Nat := 0
  misses : Nat := 0
  total_requests : Nat := 0
deriving DecidableEq

/-- A fresh `CacheStats()` record (all counters zero). -/
def CacheStats.init : CacheStats := {}

/-- Update of the `_stats` defaultdict for one category (`self._stats[category]`
is a fresh `CacheStats()` when absent). -/
def bumpStat (stats : List (String × CacheStats)) (category : String)
    (f : CacheStats → CacheStats) : List (String × CacheStats) :=
  assocUpdate stats category CacheStats.init f

/-- State of a `MemoryCache` instance: the `_cache` and `_timestamps` dicts
(updated together) and the per-category `_stats` defaultdict.  The
`threading.Lock` only serialises the operations and has no sequential
content. -/
structure MemoryCache (α : Type) where
  cache : List (String × α)
  timestamps : List (String × ℚ)
  stats : List (String × CacheStats)
deriving DecidableEq

/-- A fresh `MemoryCache()`. -/
def MemoryCache.empty {α : Type} : MemoryCache α := ⟨[], [], []⟩

/-- `MemoryCache.get(key, category)`, lines 64-81, at wall-clock time `now`.
Returns the value (or `none`) together with the mutated cache.  For a key
present in `_cache` the paired `_timestamps` entry always exists (the two
dicts are written together); the `getD 0` default is unreachable. -/
def MemoryCache.get {α : Type} (m : MemoryCache α) (now : ℚ) (key : String)
    (category : String) : Option α × MemoryCache α :=
  let m1 : MemoryCache α :=
    { m with stats := bumpStat m.stats category (fun s => { s with total_requests := s.total_requests + 1 }) }
  match m1.cache.lookup key with
  | none =>
      (none, { m1 with stats := bumpStat m1.stats category (fun s => { s with misses := s.misses + 1 }) })
  | some v =>
      let ttl := lookupTtl category
      let ts := (m1.timestamps.lookup key).getD 0
      if now - ts > ttl then
        (none, { m1 with
            cache := m1.cache.eraseP (fun p => p.1 == key),
            timestamps := m1.timestamps.eraseP (fun p => p.1 == key),
            stats := bumpStat m1.stats category (fun s => { s with misses := s.misses + 1 }) })
      else
        (some v, { m1 with stats := bumpStat m1.stats category (fun s => { s with hits := s.hits + 1 }) })

/-- `MemoryCache.set(key, value, category)`, lines 83-86.  The `category`
argument is accepted and ignored, exactly as in the source: only the value
and the write time are stored. -/
def MemoryCache.set {α : Type} (m : MemoryCache α) (now : ℚ) (key : String)
    (value : α) (category : String) : MemoryCache α :=
  let _ := category
  { m with cache := assocSet m.cache key value,
           timestamps := assocSet m.timestamps key now }

/-- The `pattern` branch of `MemoryCache.invalidate`, lines 88-94: delete
every key that contains `pattern` as a substring. -/
def MemoryCache.invalidatePattern {α : Type} (m : MemoryCache α)
    (pattern : String) : MemoryCache α :=
  { m with
      cache := m.cache.filter (fun p => !(strContain p.1 pattern)),
      timestamps := m.timestamps.filter (fun p => !(strContain p.1 pattern)) }

/-! ### Usage manager state (src/551_🤓_Homepage.py, lines 173-236) -/

/-- One entry of the `performance_metrics` defaultdict (lines 206-210). -/
structure PerfEntry where
  timestamp : ℚ
  response_time : ℚ
  success : Bool
deriving DecidableEq

/-- One row of the `portal_api_usage` table as built by `track_api_call`
(lines 218-227).  The redundant calendar fields `date` and `hour` (derived
from the same wall clock) are omitted. -/
structure UsageRecord where
  user_id : String
  endpoint : String
  timestamp : ℚ
  success : Bool
  response_time_ms : ℤ
  error_message : Option String
deriving DecidableEq

/-- Combined mutable state visible to `EnhancedAPIUsageManager` and
`EnhancedRentCastManager`: the global `memory_cache`, the `rate_limiter`
defaultdict of deques, the `performance_metrics` defaultdict, and the
append-only `portal_api_usage` ledger. -/
structure World (α : Type) where
  cache : MemoryCache α
  rate_limiter : List (String × List ℚ)
  performance_metrics : List (String × List PerfEntry)
  usage : List UsageRecord
deriving DecidableEq

/-- A fresh state: empty cache, no windows, no ledger rows. -/
def World.empty {α : Type} : World α := ⟨MemoryCache.empty, [], [], []⟩

/-- Rate-limiter key `f"{user_id}_{endpoint}"` (line 187). -/
def rlKey (user_id endpoint : String) : String := user_id ++ "_" ++ endpoint

/-- The deque currently stored for a key (a `defaultdict(deque)` yields an
empty deque for an absent key). -/
def curDq {α : Type} (w : World α) (user_id endpoint : String) : List ℚ :=
  (w.rate_limiter.lookup (rlKey user_id endpoint)).getD []

/-- The pruning loop of `check_rate_limit` (lines 190-191): pop entries from
the front while they are older than `now - 60`. -/
def pruneWindow (dq : List ℚ) (now : ℚ) : List ℚ :=
  dq.dropWhile (fun t => decide (t < now - 60))

/-- Core of `check_rate_limit` (lines 182-199) acting on one key's deque:
prune, deny if the pruned deque has reached the limit, otherwise append
`now` and allow. -/
def checkRateLimitDeque (dq : List ℚ) (now : ℚ) (limit : Nat) :
    Bool × List ℚ :=
  let dq1 := pruneWindow dq now
  if limit ≤ dq1.length then (false, dq1)
  else (true, dq1 ++ [now])

/-- Store a new deque for one rate-limiter key. -/
def rlUpdate {α : Type} (w : World α) (user_id endpoint : String)
    (dq : List ℚ) : World α :=
  { w with rate_limiter := assocSet w.rate_limiter (rlKey user_id endpoint) dq }

/-- `EnhancedAPIUsageManager.check_rate_limit(user_id, endpoint,
limit_per_minute)` on the full state. -/
def check_rate_limit {α : Type} (w : World α) (now : ℚ)
    (user_id endpoint : String) (limit_per_minute : Nat) : Bool × World α :=
  let out := checkRateLimitDeque (curDq w user_id endpoint) now limit_per_minute
  (out.1, rlUpdate w user_id endpoint out.2)

/-- `EnhancedAPIUsageManager.track_api_call` (lines 201-236): append a
performance entry (trimmed to the last 100), insert one `portal_api_usage`
row with `response_time_ms = int(response_time * 1000)`, and invalidate the
`f"usage_{user_id}"` cache pattern. -/
def track_api_call {α : Type} (w : World α) (now : ℚ)
    (user_id endpoint : String) (success : Bool) (response_time : ℚ)
    (error_message : Option String) : World α :=
  let pkey := rlKey user_id endpoint
  let entries := ((w.performance_metrics.lookup pkey).getD [])
      ++ [PerfEntry.mk now response_time success]
  let entries := if 100 < entries.length
      then entries.drop (entries.length - 100) else entries
  let row : UsageRecord :=
    ⟨user_id, endpoint, now, success, pyInt (response_time * 1000),
     error_message⟩
  { w with
      performance_metrics := assocSet w.performance_metrics pkey entries,
      usage := w.usage ++ [row],
      cache := w.cache.invalidatePattern ("usage_" ++ user_id) }

/-! ### The HTTP oracle and the retry loop
(src/551_🤓_Homepage.py, lines 317-418) -/

/-- Result of one `self.session.get` call, as far as the client inspects it:
a status code with the optional `Retry-After` header, the parsed JSON body
(only read on 200) and the raw `response.text` (only read in the
unclassified-status error message); or one of the exceptions the code
catches. -/
inductive HttpOutcome (α : Type) where
  | status (code : Nat) (retryAfter : Option Nat) (body : α) (text : String)
  | timeout
  | connError
  | unexpected (msg : String)
deriving DecidableEq

/-- What the network does on one attempt: how much wall-clock time the call
consumes before returning or raising, and its outcome. -/
structure Attempt (α : Type) where
  duration : ℚ
  outcome : HttpOutcome α
deriving DecidableEq

/-- Observable actions of a run, in program order. -/
inductive Event where
  | rateCheck (allowed : Bool)
  | httpAttempt
  | sleep (seconds : ℚ)
  | recordUsage
deriving DecidableEq

/-- Retry configuration fixed in `EnhancedRentCastManager.__init__`
(lines 331-334). -/
def maxRetriesC : Nat := 3

/-- `self.base_delay = 1.0`. -/
def baseDelayC : ℚ := 1

/-- `self.max_delay = 60.0`. -/
def maxDelayC : ℚ := 60

/-- `_calculate_backoff_delay(attempt, base_delay)` (lines 336-344) with the
`random.uniform(0.1, 0.3)` draw supplied as `jitterFrac`. -/
def calculate_backoff_delay (attempt : Nat) (base_delay : ℚ)
    (jitterFrac : ℚ) : ℚ :=
  let delay := min (base_delay * 2 ^ attempt) maxDelayC
  delay + jitterFrac * delay

/-- Output of a run of the retry loop: final state, final wall clock, the
event trace of the run, and the `(data, error)` pair it returns. -/
structure LoopOut (α : Type) where
  world : World α
  clk : ℚ
  events : List Event
  result : Option α × Option String
deriving DecidableEq

/-- The paths of `_make_request_with_retry` that leave the `for` loop by
`break` or by exhausting the final iteration: Python then runs the
`track_api_call(..., False, time.time() - start_time, last_error)` at lines
413-416.  No wall-clock time passes between leaving the loop and tracking,
so the model performs the tracking in place, with `start_time` the start of
the last executed iteration. -/
def finishFailure {α : Type} (w : World α) (clk start_time : ℚ)
    (user_id endpoint : String) (msg : String) : LoopOut α :=
  let w1 := track_api_call w clk user_id endpoint false (clk - start_time)
      (some msg)
  ⟨w1, clk, [Event.rateCheck true, Event.httpAttempt, Event.recordUsage],
   (none, some msg)⟩

/-- One iteration (and its successors) of the `for attempt in
range(self.max_retries + 1)` loop of `_make_request_with_retry` (lines
352-411).  `remaining` counts the iterations the `range` still offers; the
entry point `make_request_with_retry` supplies `remaining = maxRetriesC + 1`
so that the `remaining = 0` base case (Python falling off the loop without a
terminal iteration) is never reached.  The oracle `att` gives attempt `n`'s
duration and outcome, `jit` its `random.uniform(0.1, 0.3)` draw. -/
def retryGo {α : Type} (att : Nat → Attempt α) (jit : Nat → ℚ)
    (endpoint user_id : String) :
    Nat → Nat → World α → ℚ → Option String → LoopOut α
  | _, 0, w, clk, lastError =>
      -- unreachable from the entry point: kept only to make the recursion
      -- total; mirrors the post-loop tracking with no time elapsed
      let w1 := track_api_call w clk user_id endpoint false 0 lastError
      ⟨w1, clk, [Event.recordUsage], (none, lastError)⟩
  | attempt, remaining + 1, w, clk, lastError =>
      let start_time := clk
      let rc := check_rate_limit w clk user_id endpoint 60
      if !rc.1 then
        -- early `return` at line 358: no usage row is written
        ⟨rc.2, clk, [Event.rateCheck false],
         (none, some "Rate limit exceeded. Please try again later.")⟩
      else
        let w1 := rc.2
        let a := att attempt
        let clk1 := clk + a.duration
        match a.outcome with
        | HttpOutcome.status code retryAfter body text =>
          if code == 200 then
            let response_time := clk1 - start_time
            let w2 := track_api_call w1 clk1 user_id endpoint true
                response_time none
            ⟨w2, clk1,
             [Event.rateCheck true, Event.httpAttempt, Event.recordUsage],
             (some body, none)⟩
          else if code == 429 then
            let retry_after : ℚ := (retryAfter.getD 60 : Nat)
            if attempt < maxRetriesC then
              let d := min retry_after maxDelayC
              let out := retryGo att jit endpoint user_id (attempt + 1)
                  remaining w1 (clk1 + d) lastError
              ⟨out.world, out.clk,
               [Event.rateCheck true, Event.httpAttempt, Event.sleep d]
                 ++ out.events, out.result⟩
            else
              finishFailure w1 clk1 start_time user_id endpoint
                "API rate limit exceeded"
          else if [500, 502, 503, 504].contains code then
            if attempt < maxRetriesC then
              let d := calculate_backoff_delay attempt baseDelayC (jit attempt)
              let out := retryGo att jit endpoint user_id (attempt + 1)
                  remaining w1 (clk1 + d) lastError
              ⟨out.world, out.clk,
               [Event.rateCheck true, Event.httpAttempt, Event.sleep d]
                 ++ out.events, out.result⟩
            else
              finishFailure w1 clk1 start_time user_id endpoint
                ("Server error: " ++ toString code)
          else if code == 401 then
            finishFailure w1 clk1 start_time user_id endpoint "Invalid API key"
          else if code == 404 then
            finishFailure w1 clk1 start_time user_id endpoint
              "Property not found"
          else
            finishFailure w1 clk1 start_time user_id endpoint
              ("API error: " ++ toString code ++ " - " ++ text)
        | HttpOutcome.timeout =>
          if attempt < maxRetriesC then
            let d := calculate_backoff_delay attempt baseDelayC (jit attempt)
            let out := retryGo att jit endpoint user_id (attempt + 1)
                remaining w1 (clk1 + d) lastError
            ⟨out.world, out.clk,
             [Event.rateCheck true, Event.httpAttempt, Event.sleep d]
               ++ out.events, out.result⟩
          else
            finishFailure w1 clk1 start_time user_id endpoint "Request timeout"
        | HttpOutcome.connError =>
          if attempt < maxRetriesC then
            -- `self._calculate_backoff_delay(attempt, 2.0)` — larger base
            let d := calculate_backoff_delay attempt 2 (jit attempt)
            let out := retryGo att jit endpoint user_id (attempt + 1)
                remaining w1 (clk1 + d) lastError
            ⟨out.world, out.clk,
             [Event.rateCheck true, Event.httpAttempt, Event.sleep d]
               ++ out.events, out.result⟩
          else
            finishFailure w1 clk1 start_time user_id endpoint "Connection error"
        | HttpOutcome.unexpected msg =>
          finishFailure w1 clk1 start_time user_id endpoint
            ("Unexpected error: " ++ msg)

/-- `_make_request_with_retry(endpoint, params, user_id)` (lines 346-418).
The query `params` only travel to the network oracle and are not modelled
separately. -/
def make_request_with_retry {α : Type} (att : Nat → Attempt α)
    (jit : Nat → ℚ) (endpoint user_id : String) (w : World α) (clk : ℚ) :
    LoopOut α :=
  retryGo att jit endpoint user_id 0 (maxRetriesC + 1) w clk none

/-! ### Cache keys and `get_property_details`
(src/551_🤓_Homepage.py, lines 420-515; src/1_🤓_Homepage.py, lines 685-690) -/

/-- Cache key of `get_property_details` (line 427):
`f"property_details_{hashlib.md5(address.encode()).hexdigest()}"`, with the
digest supplied as the function `md5hex`.  The subject (`user_id`) does not
enter the key. -/
def get_property_details_cache_key (md5hex : String → String)
    (address : String) : String :=
  "property_details_" ++ md5hex address

/-- Cache key of `get_rent_estimate` (line 461): digest of
`f"{address}_{bedrooms}_{bathrooms}_{square_footage}"` (the three optional
parameters already rendered as Python `str` does).  No subject in the key. -/
def get_rent_estimate_cache_key (md5hex : String → String)
    (address bedrooms bathrooms square_footage : String) : String :=
  "rent_estimate_" ++ md5hex (address ++ "_" ++ bedrooms ++ "_" ++ bathrooms
      ++ "_" ++ square_footage)

/-- Cache key of `get_comparable_sales` (line 497): digest of
`f"{address}_{radius_miles}"`.  No subject in the key. -/
def get_comparable_sales_cache_key (md5hex : String → String)
    (address radius_miles : String) : String :=
  "comparable_sales_" ++ md5hex (address ++ "_" ++ radius_miles)

/-- `RentCastManager._generate_cache_key` of the earlier revision
(src/1_🤓_Homepage.py, lines 685-690):
`f"{address}_{city}_{state}".lower().replace(" ", "_").replace(",", "")`.
No subject in the key. -/
def generate_cache_key (address city state : String) : String :=
  (((address ++ "_" ++ city ++ "_" ++ state).toLower).replace " " "_").replace
    "," ""

/-- `EnhancedRentCastManager.get_property_details(address, user_id)`
(lines 420-451): validate, consult the cache, on a miss run the retry loop
and cache a successful, enriched result.  `md5hex` stands for the MD5 hex
digest, `enrich` for `_enrich_property_data` (whose arithmetic no claim
touches).  Python's `if cached_data:` / `if data and not error:` truthiness
tests are modelled as presence tests: every payload the code stores is a
non-empty dict. -/
def get_property_details {α : Type} (md5hex : String → String)
    (enrich : α → α) (att : Nat → Attempt α) (jit : Nat → ℚ)
    (address user_id : String) (w : World α) (clk : ℚ) : LoopOut α :=
  if address == "" || address.trim.length < 5 then
    ⟨w, clk, [], (none, some "Invalid address provided")⟩
  else
    let address1 := address.trim
    let cache_key := get_property_details_cache_key md5hex address1
    let got := MemoryCache.get w.cache clk cache_key "property_data"
    let w1 : World α := { w with cache := got.2 }
    match got.1 with
    | some v => ⟨w1, clk, [], (some v, none)⟩
    | none =>
      let out := make_request_with_retry att jit "properties" user_id w1 clk
      match out.result with
      | (some data, none) =>
        let enriched := enrich data
        let w2 : World α := { out.world with
            cache := out.world.cache.set out.clk cache_key enriched
              "property_data" }
        ⟨w2, out.clk, out.events, (some enriched, none)⟩
      | other => ⟨out.world, out.clk, out.events, (none, other.2)⟩

/-! ### The earlier revision's `fetch_property_data`
(src/1_🤓_Homepage.py, lines 940-1022) -/

/-- `max_retries = 3` at line 958 — and the loop is
`for attempt in range(max_retries)`: three iterations in total. -/
def fpdMaxRetries : Nat := 3

/-- One iteration (and its successors) of the `fetch_property_data` retry
loop.  `retry_delay` starts at 1 and doubles after every sleep; there is no
rate limiter and no usage ledger in this revision.  The 200-with-empty-body
branch (`st.warning`, returns `None`) and the uncaught-exception case are
not needed by any claim; `unexpected` is mapped to the generic
`requests.exceptions.RequestException` handler at lines 1012-1020. -/
def fpdGo {α : Type} (att : Nat → Attempt α) :
    Nat → Nat → ℚ → ℚ → Option α × ℚ × List Event
  | _, 0, _, clk => (none, clk, [])   -- `return None` at line 1022
  | attempt, remaining + 1, retry_delay, clk =>
      let a := att attempt
      let clk1 := clk + a.duration
      let retryStep : Unit → Option α × ℚ × List Event := fun _ =>
        if attempt < fpdMaxRetries - 1 then
          let out := fpdGo att (attempt + 1) remaining (retry_delay * 2)
              (clk1 + retry_delay)
          (out.1, out.2.1,
           [Event.httpAttempt, Event.sleep retry_delay] ++ out.2.2)
        else (none, clk1, [Event.httpAttempt])
      match a.outcome with
      | HttpOutcome.status code _ body _ =>
        if code == 200 then (some body, clk1, [Event.httpAttempt])
        else if code == 401 then (none, clk1, [Event.httpAttempt])
        else if code == 429 then retryStep ()
        else if 500 ≤ code then retryStep ()
        else (none, clk1, [Event.httpAttempt])
      | HttpOutcome.timeout => retryStep ()
      | HttpOutcome.connError => retryStep ()
      | HttpOutcome.unexpected _ => retryStep ()

/-- `fetch_property_data(address, city, state)` of the earlier revision:
`max_retries = 3`, `retry_delay = 1`, loop over `range(max_retries)`. -/
def fetch_property_data {α : Type} (att : Nat → Attempt α) (clk : ℚ) :
    Option α × ℚ × List Event :=
  fpdGo att 0 fpdMaxRetries 1 clk

/-! ### Trace observations and rate-limiter runs -/

/-- Number of admitted rate checks in a trace. -/
def countAdmits : List Event → Nat
  | [] => 0
  | Event.rateCheck true :: t => countAdmits t + 1
  | _ :: t => countAdmits t

/-- Number of HTTP attempts in a trace. -/
def countAttempts : List Event → Nat
  | [] => 0
  | Event.httpAttempt :: t => countAttempts t + 1
  | _ :: t => countAttempts t

/-- Number of sleeps in a trace. -/
def countSleeps : List Event → Nat
  | [] => 0
  | Event.sleep _ :: t => countSleeps t + 1
  | _ :: t => countSleeps t

/-- Number of usage rows written in a trace. -/
def countRecords : List Event → Nat
  | [] => 0
  | Event.recordUsage :: t => countRecords t + 1
  | _ :: t => countRecords t

/-- Whether the trace contains a rate-limiter denial. -/
def hasDeny : List Event → Bool
  | [] => false
  | Event.rateCheck false :: _ => true
  | _ :: t => hasDeny t

/-- Scanner for the guard discipline: every `httpAttempt` event must be
immediately preceded by an admitted rate check. -/
def guardedAux : Option Event → List Event → Bool
  | _, [] => true
  | prev, e :: rest =>
    match e with
    | Event.httpAttempt =>
        (prev == some (Event.rateCheck true)) && guardedAux (some e) rest
    | _ => guardedAux (some e) rest

/-- A sequence of `check_rate_limit` calls on one key, at the given times:
returns the final deque and the admitted timestamps, in order. -/
def rlRun (limit : Nat) : List ℚ → List ℚ → List ℚ × List ℚ
  | dq, [] => (dq, [])
  | dq, t :: ts =>
    let step := checkRateLimitDeque dq t limit
    let rest := rlRun limit step.2 ts
    (rest.1, (if step.1 then [t] else []) ++ rest.2)

/-- Trace invariant of one run of the retry loop, relative to the number of
usage rows present before the run: the trace is nonempty; a run writes
exactly one usage row unless it was cut short by a rate-limiter denial, in
which case it writes none, returns the quota-exceeded error and ends on the
denial; every admitted rate check is followed by exactly one HTTP attempt
and every HTTP attempt is immediately preceded by an admitted rate check. -/
def traceInv {α : Type} (baseUsage : Nat) (out : LoopOut α) : Prop :=
  out.events ≠ []
    ∧ countRecords out.events = (if hasDeny out.events = true then 0 else 1)
    ∧ out.world.usage.length = baseUsage + countRecords out.events
    ∧ (hasDeny out.events = true →
        out.result = (none, some "Rate limit exceeded. Please try again later.")
          ∧ out.events.getLast? = some (Event.rateCheck false))
    ∧ countAdmits out.events = countAttempts out.events
    ∧ (∀ prev, guardedAux prev out.events = true)

/-! ## Helper lemmas -/

/-- Looking up the key just written by `assocSet` yields the new value. -/
theorem lookup_assocSet_self {β : Type} (l : List (String × β)) (k : String)
    (v : β) : (assocSet l k v).lookup k = some v := by
  induction l with
  | nil => simp [assocSet, List.lookup]
  | cons h t ih =>
    obtain ⟨k0, v0⟩ := h
    by_cases hk : k0 = k
    · subst hk; simp [assocSet, List.lookup]
    · simp only [assocSet, List.lookup]
      rw [if_neg (by simpa using hk)]
      simpa [List.lookup, show (k == k0) = false by
        simpa using fun h => hk h.symm] using ih

/-- Reading back the deque just stored for a key. -/
theorem curDq_rlUpdate {α : Type} (w : World α) (user_id endpoint : String)
    (dq : List ℚ) : curDq (rlUpdate w user_id endpoint dq) user_id endpoint
      = dq := by
  simp [curDq, rlUpdate, lookup_assocSet_self]

/-- An admitted rate check: prune, append `now`, allow. -/
theorem check_rate_limit_allow {α : Type} (w : World α) (clk : ℚ)
    (user_id endpoint : String) (limit : Nat)
    (h : (pruneWindow (curDq w user_id endpoint) clk).length < limit) :
    check_rate_limit w clk user_id endpoint limit
      = (true, rlUpdate w user_id endpoint
          (pruneWindow (curDq w user_id endpoint) clk ++ [clk])) := by
  simp only [check_rate_limit, checkRateLimitDeque]
  rw [if_neg (Nat.not_le.mpr h)]

/-- A denied rate check: prune, deny, append nothing. -/
theorem check_rate_limit_deny {α : Type} (w : World α) (clk : ℚ)
    (user_id endpoint : String) (limit : Nat)
    (h : limit ≤ (pruneWindow (curDq w user_id endpoint) clk).length) :
    check_rate_limit w clk user_id endpoint limit
      = (false, rlUpdate w user_id endpoint
          (pruneWindow (curDq w user_id endpoint) clk)) := by
  simp only [check_rate_limit, checkRateLimitDeque]
  rw [if_pos h]

/-- Step lemma: an iteration whose rate check is denied returns the
quota-exceeded error at once, with no HTTP attempt and no usage row. -/
theorem retryGo_deny {α : Type} (att : Nat → Attempt α) (jit : Nat → ℚ)
    (ep uid : String) (attempt r : Nat) (w : World α) (clk : ℚ)
    (lastErr : Option String)
    (h : 60 ≤ (pruneWindow (curDq w uid ep) clk).length) :
    retryGo att jit ep uid attempt (r + 1) w clk lastErr
      = ⟨rlUpdate w uid ep (pruneWindow (curDq w uid ep) clk),
         clk, [Event.rateCheck false],
         (none, some "Rate limit exceeded. Please try again later.")⟩ := by
  simp [retryGo, check_rate_limit_deny w clk uid ep 60 h]

/-- Step lemma: an admitted attempt that gets a 200 tracks a success whose
recorded response time is the duration of this attempt alone, and returns
the body. -/
theorem retryGo_success {α : Type} (att : Nat → Attempt α) (jit : Nat → ℚ)
    (ep uid : String) (attempt r : Nat) (w : World α) (clk : ℚ)
    (lastErr : Option String) (d : ℚ) (ra : Option Nat) (body : α)
    (text : String)
    (hadm : (pruneWindow (curDq w uid ep) clk).length < 60)
    (hatt : att attempt = ⟨d, HttpOutcome.status 200 ra body text⟩) :
    retryGo att jit ep uid attempt (r + 1) w clk lastErr
      = ⟨track_api_call
            (rlUpdate w uid ep (pruneWindow (curDq w uid ep) clk ++ [clk]))
            (clk + d) uid ep true d none,
         clk + d,
         [Event.rateCheck true, Event.httpAttempt, Event.recordUsage],
         (some body, none)⟩ := by
  simp [retryGo, check_rate_limit_allow w clk uid ep 60 hadm, hatt]

/-- Step lemma: an admitted attempt that gets a 429 before the last
iteration sleeps `min(Retry-After, max_delay)` seconds and retries. -/
theorem retryGo_429_retry {α : Type} (att : Nat → Attempt α) (jit : Nat → ℚ)
    (ep uid : String) (attempt r : Nat) (w : World α) (clk : ℚ)
    (lastErr : Option String) (d : ℚ) (ra : Option Nat) (body : α)
    (text : String)
    (hadm : (pruneWindow (curDq w uid ep) clk).length < 60)
    (hatt : att attempt = ⟨d, HttpOutcome.status 429 ra body text⟩)
    (hlt : attempt < maxRetriesC) :
    retryGo att jit ep uid attempt (r + 1) w clk lastErr
      = (let d1 := min ((ra.getD 60 : Nat) : ℚ) maxDelayC
         let out := retryGo att jit ep uid (attempt + 1) r
            (rlUpdate w uid ep (pruneWindow (curDq w uid ep) clk ++ [clk]))
            (clk + d + d1) lastErr
         ⟨out.world, out.clk,
          [Event.rateCheck true, Event.httpAttempt, Event.sleep d1]
            ++ out.events, out.result⟩) := by
  simp [retryGo, check_rate_limit_allow w clk uid ep 60 hadm, hatt, hlt]

/-- Step lemma: an admitted attempt that gets one of the retryable server
statuses 500/502/503/504 before the last iteration sleeps the exponential
backoff delay and retries. -/
theorem retryGo_5xx_retry {α : Type} (att : Nat → Attempt α) (jit : Nat → ℚ)
    (ep uid : String) (attempt r : Nat) (w : World α) (clk : ℚ)
    (lastErr : Option String) (d : ℚ) (code : Nat) (ra : Option Nat)
    (body : α) (text : String)
    (hadm : (pruneWindow (curDq w uid ep) clk).length < 60)
    (hatt : att attempt = ⟨d, HttpOutcome.status code ra body text⟩)
    (hcode : code ∈ ([500, 502, 503, 504] : List Nat))
    (hlt : attempt < maxRetriesC) :
    retryGo att jit ep uid attempt (r + 1) w clk lastErr
      = (let d1 := calculate_backoff_delay attempt baseDelayC (jit attempt)
         let out := retryGo att jit ep uid (attempt + 1) r
            (rlUpdate w uid ep (pruneWindow (curDq w uid ep) clk ++ [clk]))
            (clk + d + d1) lastErr
         ⟨out.world, out.clk,
          [Event.rateCheck true, Event.httpAttempt, Event.sleep d1]
            ++ out.events, out.result⟩) := by
  simp only [List.mem_cons, List.not_mem_nil, or_false] at hcode
  rcases hcode with rfl | rfl | rfl | rfl <;>
    simp [retryGo, check_rate_limit_allow w clk uid ep 60 hadm, hatt, hlt]

/-- Step lemma: a retryable server status on the last iteration sets
`last_error = "Server error: {code}"`, exhausts the loop and tracks the
failure. -/
theorem retryGo_5xx_final {α : Type} (att : Nat → Attempt α) (jit : Nat → ℚ)
    (ep uid : String) (attempt r : Nat) (w : World α) (clk : ℚ)
    (lastErr : Option String) (d : ℚ) (code : Nat) (ra : Option Nat)
    (body : α) (text : String)
    (hadm : (pruneWindow (curDq w uid ep) clk).length < 60)
    (hatt : att attempt = ⟨d, HttpOutcome.status code ra body text⟩)
    (hcode : code ∈ ([500, 502, 503, 504] : List Nat))
    (hge : ¬ attempt < maxRetriesC) :
    retryGo att jit ep uid attempt (r + 1) w clk lastErr
      = finishFailure
          (rlUpdate w uid ep (pruneWindow (curDq w uid ep) clk ++ [clk]))
          (clk + d) clk uid ep ("Server error: " ++ toString code) := by
  simp only [List.mem_cons, List.not_mem_nil, or_false] at hcode
  rcases hcode with rfl | rfl | rfl | rfl <;>
    simp [retryGo, check_rate_limit_allow w clk uid ep 60 hadm, hatt, hge]

/-- Step lemma: an admitted attempt that gets a 401 breaks out of the loop at
once and tracks the failure. -/
theorem retryGo_401 {α : Type} (att : Nat → Attempt α) (jit : Nat → ℚ)
    (ep uid : String) (attempt r : Nat) (w : World α) (clk : ℚ)
    (lastErr : Option String) (d : ℚ) (ra : Option Nat) (body : α)
    (text : String)
    (hadm : (pruneWindow (curDq w uid ep) clk).length < 60)
    (hatt : att attempt = ⟨d, HttpOutcome.status 401 ra body text⟩) :
    retryGo att jit ep uid attempt (r + 1) w clk lastErr
      = finishFailure
          (rlUpdate w uid ep (pruneWindow (curDq w uid ep) clk ++ [clk]))
          (clk + d) clk uid ep "Invalid API key" := by
  simp [retryGo, check_rate_limit_allow w clk uid ep 60 hadm, hatt]

/-- Step lemma: a status outside {200, 429, 500, 502, 503, 504, 401, 404} —
for instance 501 — is terminal on its first occurrence with the unclassified
`API error` message. -/
theorem retryGo_other_status {α : Type} (att : Nat → Attempt α)
    (jit : Nat → ℚ) (ep uid : String) (attempt r : Nat) (w : World α)
    (clk : ℚ) (lastErr : Option String) (d : ℚ) (code : Nat)
    (ra : Option Nat) (body : α) (text : String)
    (hadm : (pruneWindow (curDq w uid ep) clk).length < 60)
    (hatt : att attempt = ⟨d, HttpOutcome.status code ra body text⟩)
    (h200 : code ≠ 200) (h429 : code ≠ 429)
    (h5xx : code ∉ ([500, 502, 503, 504] : List Nat))
    (h401 : code ≠ 401) (h404 : code ≠ 404) :
    retryGo att jit ep uid attempt (r + 1) w clk lastErr
      = finishFailure
          (rlUpdate w uid ep (pruneWindow (curDq w uid ep) clk ++ [clk]))
          (clk + d) clk uid ep
          ("API error: " ++ toString code ++ " - " ++ text) := by
  have hc : ¬ (code = 500 ∨ code = 502 ∨ code = 503 ∨ code = 504) := by
    simpa using h5xx
  simp [retryGo, check_rate_limit_allow w clk uid ep 60 hadm, hatt, h200,
    h429, hc, h401, h404]

/-! ## Claim C6 — cache correctness with expiry -/

/-- C6 (amended): for every cache state, `get(key, cat)` at time `now` after
`set(key, v)` at time `tset` returns `v` exactly while `now - tset` has not
exceeded the category TTL **strictly** (the source tests
`time.time() - self._timestamps[key] > ttl`), and returns absent once
`now - tset > ttl`; with the 7200 s `property_data` TTL, a `set` at `t = 0`
is served at `t = 7199` and absent at `t = 7201`. -/
theorem c6_cache_expiry :
    (∀ (α : Type) (m : MemoryCache α) (tset now : ℚ) (key : String) (v : α)
        (cat : String),
        ((m.set tset key v cat).get now key cat).1
          = if now - tset > lookupTtl cat then none else some v)
    ∧ (((MemoryCache.empty.set 0 "k" (37 : ℕ) "property_data").get 7199 "k"
          "property_data").1 = some 37)
    ∧ (((MemoryCache.empty.set 0 "k" (37 : ℕ) "property_data").get 7201 "k"
          "property_data").1 = none) := by
  refine ⟨fun α m tset now key v cat => ?_, by with_unfolding_all decide,
    by with_unfolding_all decide⟩
  unfold MemoryCache.get MemoryCache.set
  simp only [lookup_assocSet_self]
  split <;> simp_all

/-- C6 counterexample: the claim asserts absence as soon as
`now ≥ expiresAt`, i.e. as soon as 7200 s have elapsed for `property_data`;
but at exactly `now - tset = ttl` the code's strict `>` test still serves
the value. -/
theorem c6_counterexample :
    (((MemoryCache.empty.set 0 "k" (37 : ℕ) "property_data").get 7200 "k"
        "property_data").1 = some 37)
    ∧ lookupTtl "property_data" ≤ 7200 - 0 := by
  exact ⟨by with_unfolding_all decide, by with_unfolding_all decide⟩

/-! ## Claim C10 — expiry is decided by the reader's category -/

/-- C10: `MemoryCache.set` ignores its category argument and stores only the
value and the write timestamp; `get` derives the TTL from its own category
argument, defaulting to 3600 s for categories absent from `CACHE_TTL`; hence
two `get` calls at the same instant on the same state can disagree about
expiry (here at 2000 s: `user_data` says expired, `property_data` serves). -/
theorem c10_reader_category_decides :
    (∀ (α : Type) (m : MemoryCache α) (now : ℚ) (k : String) (v : α)
        (c1 c2 : String), m.set now k v c1 = m.set now k v c2)
    ∧ (∀ (α : Type) (m : MemoryCache α) (now : ℚ) (k : String) (v : α)
        (c : String), ((m.set now k v c).timestamps.lookup k) = some now)
    ∧ (∀ c : String, CACHE_TTL.lookup c = none → lookupTtl c = 3600)
    ∧ (((MemoryCache.empty.set 0 "k" (5 : ℕ) "default").get 2000 "k"
          "user_data").1 = none)
    ∧ (((MemoryCache.empty.set 0 "k" (5 : ℕ) "default").get 2000 "k"
          "property_data").1 = some 5) := by
  refine ⟨fun α m now k v c1 c2 => rfl,
          fun α m now k v c => lookup_assocSet_self _ _ _,
          fun c h => by simp [lookupTtl, h],
          by with_unfolding_all decide, by with_unfolding_all decide⟩

/-- C10 witness: a category not present in `CACHE_TTL` falls back to the
3600 s default. -/
theorem c10_witness : lookupTtl "no_such_category" = 3600 :=
  c10_reader_category_decides.2.2.1 "no_such_category" (by decide)

/-! ## Claim C8 — validation precedes everything -/

/-- C8: a request whose address trims to fewer than 5 characters is rejected
synchronously by `get_property_details`: the state (cache, rate limiter,
usage ledger) is returned unchanged, the event trace is empty (no cache
lookup result is consumed, no rate check, no HTTP attempt, no usage row),
and the result is the validation error. -/
theorem c8_validation_first {α : Type} (md5hex : String → String)
    (enrich : α → α) (att : Nat → Attempt α) (jit : Nat → ℚ)
    (address user_id : String) (w : World α) (clk : ℚ)
    (h : address.trim.length < 5) :
    get_property_details md5hex enrich att jit address user_id w clk
      = ⟨w, clk, [], (none, some "Invalid address provided")⟩ := by
  unfold get_property_details
  simp [h]

/-- C8 witness: the address `"12"` is rejected with all state unchanged. -/
theorem c8_witness :
    get_property_details (fun s => s) id
        (fun _ => ⟨1, HttpOutcome.status 200 none (7 : ℕ) ""⟩) (fun _ => 1/5)
        "12" "u" World.empty 0
      = ⟨World.empty, 0, [], (none, some "Invalid address provided")⟩ :=
  c8_validation_first _ _ _ _ _ _ _ _ (by with_unfolding_all decide)

/-! ## Claim C7 — non-retry of terminal auth failures -/

/-- C7: when the upstream responds 401 on the first attempt, the client
performs exactly one HTTP attempt, sleeps no backoff, immediately returns
the terminal `"Invalid API key"` error, and records exactly one failure row
whose response time is the single attempt's duration. -/
theorem c7_auth_terminal {α : Type} (att : Nat → Attempt α) (jit : Nat → ℚ)
    (ep uid : String) (w : World α) (clk d : ℚ) (ra : Option Nat) (body : α)
    (text : String)
    (hrl : w.rate_limiter.lookup (rlKey uid ep) = none)
    (hatt : att 0 = ⟨d, HttpOutcome.status 401 ra body text⟩) :
    let out := make_request_with_retry att jit ep uid w clk
    countAttempts out.events = 1 ∧ countSleeps out.events = 0
      ∧ out.result = (none, some "Invalid API key")
      ∧ out.world.usage = w.usage
          ++ [⟨uid, ep, clk + d, false, pyInt (d * 1000),
               some "Invalid API key"⟩] := by
  intro out
  have hadm : (pruneWindow (curDq w uid ep) clk).length < 60 := by
    simp [curDq, hrl, pruneWindow]
  have hstep := retryGo_401 att jit ep uid 0 maxRetriesC w clk none d ra body
      text hadm hatt
  show countAttempts out.events = 1 ∧ _
  simp only [out, make_request_with_retry, hstep, finishFailure,
    track_api_call, rlUpdate]
  simp [countAttempts, countSleeps, add_sub_cancel_left]

/-- C7 witness: a concrete 401 run from a fresh state. -/
theorem c7_witness :
    let out := make_request_with_retry
        (fun _ => ⟨1, HttpOutcome.status 401 none (0 : ℕ) ""⟩) (fun _ => 1/5)
        "properties" "u" World.empty 0
    countAttempts out.events = 1 ∧ countSleeps out.events = 0
      ∧ out.result = (none, some "Invalid API key")
      ∧ out.world.usage = (World.empty : World ℕ).usage
          ++ [⟨"u", "properties", 0 + 1, false, pyInt (1 * 1000),
               some "Invalid API key"⟩] :=
  c7_auth_terminal _ _ "properties" "u" World.empty 0 1 none 0 "" rfl rfl

/-! ## Claim C5 — response-time accounting -/

/-- C5 (amended): for the spec's scenario — a 429 with `Retry-After: 2`
followed by a 200 — the client does wait exactly `min(2, max_delay) = 2`
seconds before its single retry and records `success=true`; but
`start_time` is reset at the top of each loop iteration, so the recorded
`response_time_ms` is `int(d1 * 1000)` for the final attempt's duration
`d1` alone, while the logical request spans `d0 + 2 + d1` seconds from the
start of the first attempt to the terminal outcome — the recorded time
excludes the wait and the first attempt. -/
theorem c5_response_time_last_attempt {α : Type} (att : Nat → Attempt α)
    (jit : Nat → ℚ) (ep uid : String) (w : World α) (clk d0 d1 : ℚ)
    (ra1 : Option Nat) (b0 : α) (t0 : String) (v : α) (t1 : String)
    (hrl : w.rate_limiter.lookup (rlKey uid ep) = none)
    (h0 : att 0 = ⟨d0, HttpOutcome.status 429 (some 2) b0 t0⟩)
    (h1 : att 1 = ⟨d1, HttpOutcome.status 200 ra1 v t1⟩) :
    let out := make_request_with_retry att jit ep uid w clk
    out.events = [Event.rateCheck true, Event.httpAttempt, Event.sleep 2,
                  Event.rateCheck true, Event.httpAttempt, Event.recordUsage]
      ∧ out.result = (some v, none)
      ∧ out.clk = clk + d0 + 2 + d1
      ∧ out.world.usage = w.usage
          ++ [⟨uid, ep, clk + d0 + 2 + d1, true, pyInt (d1 * 1000), none⟩] := by
  intro out
  have hadm : (pruneWindow (curDq w uid ep) clk).length < 60 := by
    simp [curDq, hrl, pruneWindow]
  have hmin : min (((some (2 : ℕ)).getD 60 : ℕ) : ℚ) maxDelayC = 2 := by
    norm_num [maxDelayC]
  have hstep := retryGo_429_retry att jit ep uid 0 maxRetriesC w clk none d0
      (some 2) b0 t0 hadm h0 (by norm_num [maxRetriesC])
  rw [hmin] at hstep
  have hcur1 : curDq (rlUpdate w uid ep (pruneWindow (curDq w uid ep) clk
      ++ [clk])) uid ep = [clk] := by
    simp [curDq, rlUpdate, lookup_assocSet_self, hrl, pruneWindow]
  have hadm1 : (pruneWindow (curDq (rlUpdate w uid ep
      (pruneWindow (curDq w uid ep) clk ++ [clk])) uid ep)
      (clk + d0 + 2)).length < 60 := by
    rw [hcur1]
    exact lt_of_le_of_lt ((List.dropWhile_sublist _).length_le) (by simp)
  have hstep2 := retryGo_success att jit ep uid 1 2
      (rlUpdate w uid ep (pruneWindow (curDq w uid ep) clk ++ [clk]))
      (clk + d0 + 2) none d1 ra1 v t1 hadm1 h1
  have hrec : retryGo att jit ep uid (0 + 1) maxRetriesC
      (rlUpdate w uid ep (pruneWindow (curDq w uid ep) clk ++ [clk]))
      (clk + d0 + 2) none = _ := hstep2
  show out.events = _ ∧ _
  simp only [out, make_request_with_retry, hstep]
  simp only [hrec]
  simp [track_api_call, rlUpdate]

/-- C5 witness: the scenario with both attempt durations equal to 1 s. -/
theorem c5_witness :
    let out := make_request_with_retry
        (fun n => if n = 0 then ⟨1, HttpOutcome.status 429 (some 2) (0 : ℕ) ""⟩
                  else ⟨1, HttpOutcome.status 200 none 9 ""⟩)
        (fun _ => 1/5) "properties" "u" World.empty 0
    out.events = [Event.rateCheck true, Event.httpAttempt, Event.sleep 2,
                  Event.rateCheck true, Event.httpAttempt, Event.recordUsage]
      ∧ out.result = (some 9, none)
      ∧ out.clk = 0 + 1 + 2 + 1
      ∧ out.world.usage = (World.empty : World ℕ).usage
          ++ [⟨"u", "properties", 0 + 1 + 2 + 1, true, pyInt (1 * 1000),
               none⟩] :=
  c5_response_time_last_attempt _ _ "properties" "u" World.empty 0 1 1 none 0
    "" 9 "" rfl rfl rfl

/-- C5 counterexample: in the 429-then-200 run with 1 s attempts, the
request spans 4 s (4000 ms) from first attempt to terminal outcome, but the
recorded `response_time_ms` is 1000 — the claim that the recorded time
covers first-attempt-to-terminal including the wait is false. -/
theorem c5_counterexample :
    let out := make_request_with_retry
        (fun n => if n = 0 then ⟨1, HttpOutcome.status 429 (some 2) (0 : ℕ) ""⟩
                  else ⟨1, HttpOutcome.status 200 none 9 ""⟩)
        (fun _ => 1/5) "properties" "u" World.empty 0
    out.world.usage.map (fun r => r.response_time_ms) = [1000]
      ∧ out.clk - 0 = 4
      ∧ pyInt ((out.clk - 0) * 1000) = 4000
      ∧ out.world.usage.map (fun r => r.response_time_ms)
          ≠ [pyInt ((out.clk - 0) * 1000)] := by
  with_unfolding_all decide

/-! ## Claim C1 — cache isolation across subjects -/

/-- C1 (amended): the `get_property_details` cache key is derived from the
address digest alone and contains no subject; consequently, after subject
`u1` populates the cache for an address, a lookup by any other subject `u2`
for the same address is a cache hit that returns `u1`'s cached value with
zero HTTP attempts — cached values are shared across subjects, for every
digest function. -/
theorem c1_cache_shared_across_subjects {α : Type} (md5hex : String → String)
    (enrich : α → α) (att1 att2 : Nat → Attempt α) (jit1 jit2 : Nat → ℚ)
    (u1 u2 address : String) (w : World α) (clk clk2 d0 : ℚ)
    (ra : Option Nat) (v : α) (tx : String)
    (hlen : 5 ≤ address.trim.length)
    (hc : w.cache.cache.lookup
        (get_property_details_cache_key md5hex address.trim) = none)
    (hrl : w.rate_limiter.lookup (rlKey u1 "properties") = none)
    (hatt : att1 0 = ⟨d0, HttpOutcome.status 200 ra v tx⟩)
    (hfresh : clk2 - (clk + d0) ≤ 7200) :
    let out1 := get_property_details md5hex enrich att1 jit1 address u1 w clk
    let out2 := get_property_details md5hex enrich att2 jit2 address u2
        out1.world clk2
    out1.result = (some (enrich v), none)
      ∧ out2.result = (some (enrich v), none)
      ∧ countAttempts out2.events = 0 := by
  intro out1 out2
  have htrim : ("" : String).trim.length = 0 := by with_unfolding_all decide
  have hne : (address == "") = false := by
    apply beq_eq_false_iff_ne.mpr
    intro h; rw [h, htrim] at hlen; omega
  have hlt : ¬ address.trim.length < 5 := not_lt.mpr hlen
  have hfresh2 : ¬ clk2 - (clk + d0) > lookupTtl "property_data" := by
    have h72 : lookupTtl "property_data" = 7200 := by rfl
    rw [h72]; exact not_lt.mpr hfresh
  have hfst1 : (MemoryCache.get w.cache clk
      (get_property_details_cache_key md5hex address.trim) "property_data").1 = none := by
    simp [MemoryCache.get, hc]
  have hadm : (pruneWindow (curDq ({ w with cache := (MemoryCache.get w.cache clk (get_property_details_cache_key md5hex address.trim) "property_data").2 }) u1 "properties") clk).length < 60 := by
    simp [curDq, hrl, pruneWindow]
  have hs := retryGo_success att1 jit1 "properties" u1 0 maxRetriesC
      ({ w with cache := (MemoryCache.get w.cache clk (get_property_details_cache_key md5hex address.trim) "property_data").2 }) clk none d0 ra v tx hadm hatt
  obtain ⟨W2, hout1, hW2c, hW2t⟩ :
      ∃ W2 : World α,
        out1 = ⟨W2, clk + d0,
          [Event.rateCheck true, Event.httpAttempt, Event.recordUsage],
          (some (enrich v), none)⟩
        ∧ W2.cache.cache.lookup (get_property_details_cache_key md5hex address.trim) = some (enrich v)
        ∧ W2.cache.timestamps.lookup (get_property_details_cache_key md5hex address.trim) = some (clk + d0) :=
    ⟨_, by
        simp only [out1, get_property_details, hne, hlt, decide_False,
          Bool.false_or, Bool.or_false, Bool.false_eq_true, if_false,
          hfst1, make_request_with_retry, hs]
        rfl,
      by simp [MemoryCache.set, lookup_assocSet_self],
      by simp [MemoryCache.set, lookup_assocSet_self]⟩
  have hfst2 : (MemoryCache.get W2.cache clk2
      (get_property_details_cache_key md5hex address.trim) "property_data").1 = some (enrich v) := by
    simp [MemoryCache.get, hW2c, hW2t, hfresh2]
  refine ⟨by simp [hout1], ?_, ?_⟩ <;>
    simp [out2, hout1, get_property_details, hne, hlt, decide_False,
      Bool.false_or, Bool.or_false, Bool.false_eq_true, if_false, hfst2,
      countAttempts]

/-- C1 witness: concrete two-subject scenario on a fresh state. -/
theorem c1_witness :
    let out1 := get_property_details (fun s => s) id
        (fun _ => ⟨1, HttpOutcome.status 200 none (7 : ℕ) ""⟩) (fun _ => 1/5)
        "123 Main Street" "alice" World.empty 0
    let out2 := get_property_details (fun s => s) id
        (fun _ => ⟨1, HttpOutcome.status 500 none (0 : ℕ) ""⟩) (fun _ => 1/5)
        "123 Main Street" "bob" out1.world 10
    out1.result = (some 7, none)
      ∧ out2.result = (some 7, none)
      ∧ countAttempts out2.events = 0 :=
  c1_cache_shared_across_subjects (fun s => s) id _ _ _ _ "alice" "bob"
    "123 Main Street" World.empty 0 10 1 none 7 ""
    (by with_unfolding_all decide) rfl rfl rfl
    (by with_unfolding_all decide)

/-- C1 counterexample: subjects `"alice"` and `"bob"` are distinct, yet the
value fetched and cached by alice's request is returned to bob's lookup of
the same address without any network attempt, and the cache keys derived
for the same address coincide — the claimed per-subject key distinctness
and isolation fail. -/
theorem c1_counterexample :
    let out1 := get_property_details (fun s => s) id
        (fun _ => ⟨1, HttpOutcome.status 200 none (7 : ℕ) ""⟩) (fun _ => 1/5)
        "123 Main Street" "alice" World.empty 0
    let out2 := get_property_details (fun s => s) id
        (fun _ => ⟨1, HttpOutcome.status 500 none (0 : ℕ) ""⟩) (fun _ => 1/5)
        "123 Main Street" "bob" out1.world 10
    ("alice" : String) ≠ "bob"
      ∧ out1.result = (some 7, none)
      ∧ out2.result = (some 7, none)
      ∧ countAttempts out2.events = 0
      ∧ get_property_details_cache_key (fun s => s) "123 Main Street"
          = get_property_details_cache_key (fun s => s) "123 Main Street" := by
  with_unfolding_all decide

/-! ## Trace invariant of the retry loop (shared by the usage-completeness
and per-attempt-quota claims) -/

/-- `track_api_call` appends exactly one row to the usage ledger. -/
theorem track_api_call_usage {α : Type} (w : World α) (now : ℚ)
    (uid ep : String) (s : Bool) (rt : ℚ) (e : Option String) :
    (track_api_call w now uid ep s rt e).usage
      = w.usage ++ [⟨uid, ep, now, s, pyInt (rt * 1000), e⟩] := rfl

/-- A terminal iteration that tracks one usage row satisfies the trace
invariant. -/
theorem traceInv_track_leaf {α : Type} (w : World α) (now : ℚ)
    (uid ep : String) (s : Bool) (rt : ℚ) (e : Option String) (c : ℚ)
    (res : Option α × Option String) :
    traceInv w.usage.length
      ⟨track_api_call w now uid ep s rt e, c,
       [Event.rateCheck true, Event.httpAttempt, Event.recordUsage], res⟩ := by
  refine ⟨by simp, ?_, ?_, ?_, ?_, ?_⟩ <;>
    simp [countRecords, hasDeny, countAdmits, countAttempts, guardedAux,
      track_api_call_usage]

/-- A denial leaf satisfies the trace invariant when the world's ledger is
untouched. -/
theorem traceInv_deny_leaf {α : Type} (B : Nat) (w1 : World α) (c : ℚ)
    (hu : w1.usage.length = B) :
    traceInv B
      ⟨w1, c, [Event.rateCheck false],
       (none, some "Rate limit exceeded. Please try again later.")⟩ := by
  refine ⟨by simp, ?_, ?_, ?_, ?_, ?_⟩ <;>
    simp [countRecords, hasDeny, countAdmits, countAttempts, guardedAux, hu]

/-- Prepending one admitted-but-retried attempt (rate check, HTTP attempt,
sleep) to a run preserves the trace invariant. -/
theorem traceInv_prepend_attempt {α : Type} (B : Nat) (out1 : LoopOut α)
    (δ : ℚ) (H : traceInv B out1) :
    traceInv B
      ⟨out1.world, out1.clk,
       [Event.rateCheck true, Event.httpAttempt, Event.sleep δ]
         ++ out1.events, out1.result⟩ := by
  obtain ⟨H1, H2, H3, H4, H5, H6⟩ := H
  obtain ⟨e0, es, hevs⟩ := List.exists_cons_of_ne_nil H1
  refine ⟨by simp, ?_, ?_, ?_, ?_, ?_⟩
  · simpa [countRecords, hasDeny] using H2
  · simpa [countRecords, hasDeny] using H3
  · intro hd
    rw [List.cons_append, List.cons_append, List.cons_append,
      List.nil_append] at hd ⊢
    simp only [hasDeny] at hd
    refine ⟨(H4 hd).1, ?_⟩
    rw [hevs]
    simpa [hevs] using (H4 hd).2
  · simpa [countAdmits, countAttempts] using H5
  · intro prev
    simpa [guardedAux] using H6 (some (Event.sleep δ))

/-- The retry loop satisfies the trace invariant from any starting state. -/
theorem retryGo_traceInv {α : Type} (att : Nat → Attempt α) (jit : Nat → ℚ)
    (ep uid : String) :
    ∀ (r attempt : Nat) (w : World α) (clk : ℚ) (lastErr : Option String),
      traceInv w.usage.length (retryGo att jit ep uid attempt r w clk lastErr)
    := by
  intro r
  induction r with
  | zero =>
    intro attempt w clk lastErr
    refine ⟨by simp [retryGo], ?_, ?_, ?_, ?_, ?_⟩ <;>
      simp [retryGo, countRecords, hasDeny, countAdmits, countAttempts,
        guardedAux, track_api_call_usage]
  | succ r ih =>
    intro attempt w clk lastErr
    have hW1u : ((check_rate_limit w clk uid ep 60).2).usage.length
        = w.usage.length := rfl
    simp only [retryGo]
    cases h1 : (check_rate_limit w clk uid ep 60).1 with
    | false =>
      simp only [h1, Bool.not_false, if_pos]
      exact traceInv_deny_leaf _ _ _ hW1u
    | true =>
      simp only [h1, Bool.not_true, Bool.false_eq_true, if_false]
      rcases hA : att attempt with ⟨d, oc⟩
      simp only [hA]
      cases oc with
      | status code ra body text =>
        cases h200 : code == 200 with
        | true =>
          simp only [h200, if_pos]
          exact traceInv_track_leaf _ _ _ _ _ _ _ _ _
        | false =>
          simp only [h200, Bool.false_eq_true, if_false]
          cases h429 : code == 429 with
          | true =>
            simp only [h429, if_pos]
            by_cases hlt : attempt < maxRetriesC
            · simp only [if_pos hlt]
              exact traceInv_prepend_attempt _ _ _
                (ih (attempt + 1) _ _ lastErr)
            · simp only [if_neg hlt, finishFailure]
              exact traceInv_track_leaf _ _ _ _ _ _ _ _ _
          | false =>
            simp only [h429, Bool.false_eq_true, if_false]
            cases h5xx : [500, 502, 503, 504].contains code with
            | true =>
              simp only [h5xx, if_pos]
              by_cases hlt : attempt < maxRetriesC
              · simp only [if_pos hlt]
                exact traceInv_prepend_attempt _ _ _
                  (ih (attempt + 1) _ _ lastErr)
              · simp only [if_neg hlt, finishFailure]
                exact traceInv_track_leaf _ _ _ _ _ _ _ _ _
            | false =>
              simp only [h5xx, Bool.false_eq_true, if_false]
              cases h401 : code == 401 with
              | true =>
                simp only [h401, if_pos, finishFailure]
                exact traceInv_track_leaf _ _ _ _ _ _ _ _ _
              | false =>
                simp only [h401, Bool.false_eq_true, if_false]
                cases h404 : code == 404 with
                | true =>
                  simp only [h404, if_pos, finishFailure]
                  exact traceInv_track_leaf _ _ _ _ _ _ _ _ _
                | false =>
                  simp only [h404, Bool.false_eq_true, if_false,
                    finishFailure]
                  exact traceInv_track_leaf _ _ _ _ _ _ _ _ _
      | timeout =>
        by_cases hlt : attempt < maxRetriesC
        · simp only [if_pos hlt]
          exact traceInv_prepend_attempt _ _ _ (ih (attempt + 1) _ _ lastErr)
        · simp only [if_neg hlt, finishFailure]
          exact traceInv_track_leaf _ _ _ _ _ _ _ _ _
      | connError =>
        by_cases hlt : attempt < maxRetriesC
        · simp only [if_pos hlt]
          exact traceInv_prepend_attempt _ _ _ (ih (attempt + 1) _ _ lastErr)
        · simp only [if_neg hlt, finishFailure]
          exact traceInv_track_leaf _ _ _ _ _ _ _ _ _
      | unexpected msg =>
        simp only [finishFailure]
        exact traceInv_track_leaf _ _ _ _ _ _ _ _ _

/-! ## Claim C2 — usage completeness -/

/-- C2 (amended): a logical request that enters the retry loop appends
exactly one usage row — unless the rate limiter denies admission, in which
case the loop returns the quota-exceeded error immediately, the denial is
the last event (so no network call follows it), and **no** usage row is
appended; the `track_api_call` at lines 413-416 is skipped by the early
`return` at line 358. -/
theorem c2_usage_records {α : Type} (att : Nat → Attempt α) (jit : Nat → ℚ)
    (ep uid : String) (w : World α) (clk : ℚ) :
    let out := make_request_with_retry att jit ep uid w clk
    countRecords out.events = (if hasDeny out.events = true then 0 else 1)
      ∧ out.world.usage.length = w.usage.length + countRecords out.events
      ∧ (hasDeny out.events = true →
          out.result
              = (none, some "Rate limit exceeded. Please try again later.")
            ∧ out.events.getLast? = some (Event.rateCheck false)) := by
  obtain ⟨_, H2, H3, H4, _, _⟩ :=
    retryGo_traceInv att jit ep uid (maxRetriesC + 1) 0 w clk none
  exact ⟨H2, H3, H4⟩

/-- C2 counterexample: with the subject's window already full (60 admitted
timestamps in the last minute), the request is denied and returns the
quota-exceeded error, but the usage ledger stays empty — no
`success=false` row is written, contradicting the claim. -/
theorem c2_counterexample :
    let out := make_request_with_retry
        (fun _ => ⟨1, HttpOutcome.status 200 none (7 : ℕ) ""⟩) (fun _ => 1/5)
        "properties" "u"
        (⟨MemoryCache.empty, [("u_properties", List.replicate 60 0)], [], []⟩
          : World ℕ) 0
    out.result = (none, some "Rate limit exceeded. Please try again later.")
      ∧ countAttempts out.events = 0
      ∧ out.world.usage = []
      ∧ out.world.usage.length ≠ 1 := by
  with_unfolding_all decide


/-- C2 witness: the denial case of the usage-records theorem at a concrete
full window. -/
theorem c2_witness :
    let out := make_request_with_retry
        (fun _ => ⟨1, HttpOutcome.status 200 none (7 : ℕ) ""⟩) (fun _ => 1/5)
        "properties" "u"
        (⟨MemoryCache.empty, [("u_properties", List.replicate 60 0)], [], []⟩
          : World ℕ) 0
    out.result = (none, some "Rate limit exceeded. Please try again later.")
      ∧ out.events.getLast? = some (Event.rateCheck false) :=
  (c2_usage_records _ _ "properties" "u"
      (⟨MemoryCache.empty, [("u_properties", List.replicate 60 0)], [], []⟩
        : World ℕ) 0).2.2 (by with_unfolding_all decide)

/-! ## Claim C9 — per-attempt quota consumption -/

/-- C9: `check_rate_limit` guards every individual HTTP attempt (each
attempt event is immediately preceded by an admitted check, and admitted
checks and attempts are in bijection); each admitted check appends the
current timestamp to the pruned window; and a request admitted on its first
attempt can still terminate with a rate-limit denial on a retry — here the
window has 59 recent stamps, attempt 1 is admitted (filling the window),
the 500 response triggers a backoff retry, and the second check denies. -/
theorem c9_per_attempt_quota :
    (∀ (α : Type) (att : Nat → Attempt α) (jit : Nat → ℚ)
        (ep uid : String) (w : World α) (clk : ℚ),
       let out := make_request_with_retry att jit ep uid w clk
       guardedAux none out.events = true
         ∧ countAdmits out.events = countAttempts out.events)
    ∧ (∀ (dq : List ℚ) (now : ℚ) (limit : Nat),
        (checkRateLimitDeque dq now limit).1 = true →
          (checkRateLimitDeque dq now limit).2 = pruneWindow dq now ++ [now])
    ∧ (let out := make_request_with_retry
          (fun _ => ⟨1, HttpOutcome.status 500 none (0 : ℕ) ""⟩)
          (fun _ => 1/5) "properties" "u"
          (⟨MemoryCache.empty, [("u_properties", List.replicate 59 0)], [],
            []⟩ : World ℕ) 0
       out.events = [Event.rateCheck true, Event.httpAttempt,
           Event.sleep (6/5), Event.rateCheck false]
         ∧ out.result
             = (none, some "Rate limit exceeded. Please try again later.")
         ∧ out.world.usage = []) := by
  refine ⟨fun α att jit ep uid w clk => ?_, fun dq now limit h => ?_, ?_⟩
  · obtain ⟨_, _, _, _, H5, H6⟩ :=
      retryGo_traceInv att jit ep uid (maxRetriesC + 1) 0 w clk none
    exact ⟨H6 none, H5⟩
  · unfold checkRateLimitDeque at h ⊢
    by_cases hc : limit ≤ (pruneWindow dq now).length
    · rw [if_pos hc] at h; exact absurd h (by simp)
    · rw [if_neg hc]
  · with_unfolding_all decide

/-- C9 witness: a fresh key's first check is admitted and appends the
timestamp. -/
theorem c9_witness :
    (checkRateLimitDeque [] 0 60).2 = pruneWindow [] 0 ++ [0] :=
  c9_per_attempt_quota.2.1 [] 0 60 (by with_unfolding_all decide)

/-! ## Claim C4 — retry termination on persistent server errors -/

/-- Step lemma for the earlier revision's loop: a status ≥ 500 before the
last iteration sleeps `retry_delay`, doubles it, and retries. -/
theorem fpdGo_5xx_retry {α : Type} (att : Nat → Attempt α)
    (attempt r : Nat) (rd clk d : ℚ) (code : Nat) (ra : Option Nat)
    (body : α) (text : String)
    (hatt : att attempt = ⟨d, HttpOutcome.status code ra body text⟩)
    (h5 : 500 ≤ code) (hlt : attempt < fpdMaxRetries - 1) :
    fpdGo att attempt (r + 1) rd clk
      = (let out := fpdGo att (attempt + 1) r (rd * 2) (clk + d + rd)
         (out.1, out.2.1, [Event.httpAttempt, Event.sleep rd] ++ out.2.2)) := by
  have h200 : (code == 200) = false := by simp; omega
  have h401 : (code == 401) = false := by simp; omega
  have h429 : (code == 429) = false := by simp; omega
  simp [fpdGo, hatt, h200, h401, h429, h5, hlt]

/-- Step lemma for the earlier revision's loop: a status ≥ 500 on the last
iteration returns `None` after this attempt, with no further sleep. -/
theorem fpdGo_5xx_final {α : Type} (att : Nat → Attempt α)
    (attempt r : Nat) (rd clk d : ℚ) (code : Nat) (ra : Option Nat)
    (body : α) (text : String)
    (hatt : att attempt = ⟨d, HttpOutcome.status code ra body text⟩)
    (h5 : 500 ≤ code) (hge : ¬ attempt < fpdMaxRetries - 1) :
    fpdGo att attempt (r + 1) rd clk = (none, clk + d, [Event.httpAttempt]) := by
  have h200 : (code == 200) = false := by simp; omega
  have h401 : (code == 401) = false := by simp; omega
  have h429 : (code == 429) = false := by simp; omega
  simp [fpdGo, hatt, h200, h401, h429, h5, hge]

/-- C4 (amended), part 1 — the enhanced client retries exactly the statuses
500/502/503/504: when every attempt yields one of them, the client performs
exactly `max_retries + 1 = 4` HTTP attempts with an exponential-backoff
sleep between consecutive attempts, then returns the terminal
`"Server error: {code}"` of the last attempt. -/
theorem c4_enhanced_all_5xx {α : Type} (att : Nat → Attempt α)
    (jit : Nat → ℚ) (ep uid : String) (w : World α) (clk : ℚ)
    (d : Nat → ℚ) (c : Nat → Nat) (ra : Nat → Option Nat) (b : Nat → α)
    (tx : Nat → String)
    (hst : ∀ n, att n = ⟨d n, HttpOutcome.status (c n) (ra n) (b n) (tx n)⟩)
    (hcode : ∀ n, c n ∈ ([500, 502, 503, 504] : List Nat))
    (hrl : w.rate_limiter.lookup (rlKey uid ep) = none) :
    let out := make_request_with_retry att jit ep uid w clk
    out.events = [Event.rateCheck true, Event.httpAttempt,
        Event.sleep (calculate_backoff_delay 0 baseDelayC (jit 0)),
        Event.rateCheck true, Event.httpAttempt,
        Event.sleep (calculate_backoff_delay 1 baseDelayC (jit 1)),
        Event.rateCheck true, Event.httpAttempt,
        Event.sleep (calculate_backoff_delay 2 baseDelayC (jit 2)),
        Event.rateCheck true, Event.httpAttempt, Event.recordUsage]
      ∧ countAttempts out.events = maxRetriesC + 1
      ∧ countSleeps out.events = maxRetriesC
      ∧ out.result = (none, some ("Server error: " ++ toString (c 3))) := by
  intro out
  have hadm0 : (pruneWindow (curDq w uid ep) clk).length < 60 := by
    simp [curDq, hrl, pruneWindow]
  have h1 := retryGo_5xx_retry att jit ep uid 0 maxRetriesC w clk none (d 0)
      (c 0) (ra 0) (b 0) (tx 0) hadm0 (hst 0) (hcode 0)
      (by norm_num [maxRetriesC])
  obtain ⟨W1, hW1⟩ : ∃ W1 : World α,
      rlUpdate w uid ep (pruneWindow (curDq w uid ep) clk ++ [clk]) = W1 :=
    ⟨_, rfl⟩
  rw [hW1] at h1
  have hlen1 : (curDq W1 uid ep).length ≤ 1 := by
    rw [← hW1]; simp [curDq, rlUpdate, lookup_assocSet_self, hrl, pruneWindow]
  have hadm1 : (pruneWindow (curDq W1 uid ep) (clk + d 0 + calculate_backoff_delay 0 baseDelayC (jit 0))).length < 60 :=
    lt_of_le_of_lt (le_trans (List.dropWhile_sublist _).length_le hlen1)
      (by norm_num)
  have h2 : retryGo att jit ep uid (0 + 1) maxRetriesC W1 (clk + d 0 + calculate_backoff_delay 0 baseDelayC (jit 0)) none = _ :=
    retryGo_5xx_retry att jit ep uid (0 + 1) 2 W1 (clk + d 0 + calculate_backoff_delay 0 baseDelayC (jit 0)) none (d (0 + 1))
      (c (0 + 1)) (ra (0 + 1)) (b (0 + 1)) (tx (0 + 1)) hadm1 (hst (0 + 1))
      (hcode (0 + 1)) (by norm_num [maxRetriesC])
  obtain ⟨W2, hW2⟩ : ∃ W2 : World α,
      rlUpdate W1 uid ep (pruneWindow (curDq W1 uid ep) (clk + d 0 + calculate_backoff_delay 0 baseDelayC (jit 0)) ++ [(clk + d 0 + calculate_backoff_delay 0 baseDelayC (jit 0))]) = W2 :=
    ⟨_, rfl⟩
  rw [hW2] at h2
  have hlen2 : (curDq W2 uid ep).length ≤ 2 := by
    rw [← hW2, curDq_rlUpdate, List.length_append]
    have hsub : List.Sublist (pruneWindow (curDq W1 uid ep) (clk + d 0 + calculate_backoff_delay 0 baseDelayC (jit 0)))
        (curDq W1 uid ep) := List.dropWhile_sublist _
    have hle := hsub.length_le
    simp only [List.length_singleton]
    omega
  have hadm2 : (pruneWindow (curDq W2 uid ep) ((clk + d 0 + calculate_backoff_delay 0 baseDelayC (jit 0)) + d (0 + 1) + calculate_backoff_delay (0 + 1) baseDelayC (jit (0 + 1)))).length < 60 :=
    lt_of_le_of_lt (le_trans (List.dropWhile_sublist _).length_le hlen2)
      (by norm_num)
  have h3 : retryGo att jit ep uid (0 + 1 + 1) 2 W2 ((clk + d 0 + calculate_backoff_delay 0 baseDelayC (jit 0)) + d (0 + 1) + calculate_backoff_delay (0 + 1) baseDelayC (jit (0 + 1))) none = _ :=
    retryGo_5xx_retry att jit ep uid (0 + 1 + 1) 1 W2 ((clk + d 0 + calculate_backoff_delay 0 baseDelayC (jit 0)) + d (0 + 1) + calculate_backoff_delay (0 + 1) baseDelayC (jit (0 + 1))) none
      (d (0 + 1 + 1)) (c (0 + 1 + 1)) (ra (0 + 1 + 1)) (b (0 + 1 + 1))
      (tx (0 + 1 + 1)) hadm2 (hst (0 + 1 + 1)) (hcode (0 + 1 + 1))
      (by norm_num [maxRetriesC])
  obtain ⟨W3, hW3⟩ : ∃ W3 : World α,
      rlUpdate W2 uid ep (pruneWindow (curDq W2 uid ep) ((clk + d 0 + calculate_backoff_delay 0 baseDelayC (jit 0)) + d (0 + 1) + calculate_backoff_delay (0 + 1) baseDelayC (jit (0 + 1))) ++ [((clk + d 0 + calculate_backoff_delay 0 baseDelayC (jit 0)) + d (0 + 1) + calculate_backoff_delay (0 + 1) baseDelayC (jit (0 + 1)))]) = W3 :=
    ⟨_, rfl⟩
  rw [hW3] at h3
  have hlen3 : (curDq W3 uid ep).length ≤ 3 := by
    rw [← hW3, curDq_rlUpdate, List.length_append]
    have hsub : List.Sublist (pruneWindow (curDq W2 uid ep) ((clk + d 0 + calculate_backoff_delay 0 baseDelayC (jit 0)) + d (0 + 1) + calculate_backoff_delay (0 + 1) baseDelayC (jit (0 + 1))))
        (curDq W2 uid ep) := List.dropWhile_sublist _
    have hle := hsub.length_le
    simp only [List.length_singleton]
    omega
  have hadm3 : (pruneWindow (curDq W3 uid ep) (((clk + d 0 + calculate_backoff_delay 0 baseDelayC (jit 0)) + d (0 + 1) + calculate_backoff_delay (0 + 1) baseDelayC (jit (0 + 1))) + d (0 + 1 + 1) + calculate_backoff_delay (0 + 1 + 1) baseDelayC (jit (0 + 1 + 1)))).length < 60 :=
    lt_of_le_of_lt (le_trans (List.dropWhile_sublist _).length_le hlen3)
      (by norm_num)
  have h4 : retryGo att jit ep uid (0 + 1 + 1 + 1) 1 W3 (((clk + d 0 + calculate_backoff_delay 0 baseDelayC (jit 0)) + d (0 + 1) + calculate_backoff_delay (0 + 1) baseDelayC (jit (0 + 1))) + d (0 + 1 + 1) + calculate_backoff_delay (0 + 1 + 1) baseDelayC (jit (0 + 1 + 1))) none = _ :=
    retryGo_5xx_final att jit ep uid (0 + 1 + 1 + 1) 0 W3 (((clk + d 0 + calculate_backoff_delay 0 baseDelayC (jit 0)) + d (0 + 1) + calculate_backoff_delay (0 + 1) baseDelayC (jit (0 + 1))) + d (0 + 1 + 1) + calculate_backoff_delay (0 + 1 + 1) baseDelayC (jit (0 + 1 + 1))) none
      (d (0 + 1 + 1 + 1)) (c (0 + 1 + 1 + 1)) (ra (0 + 1 + 1 + 1))
      (b (0 + 1 + 1 + 1)) (tx (0 + 1 + 1 + 1)) hadm3 (hst (0 + 1 + 1 + 1))
      (hcode (0 + 1 + 1 + 1)) (by norm_num [maxRetriesC])
  show out.events = _ ∧ _
  simp only [out, make_request_with_retry, h1, h2, h3, h4, finishFailure,
    track_api_call]
  simp [countAttempts, countSleeps, maxRetriesC]

/-- C4 (amended), part 2 — a 5xx status outside {500, 502, 503, 504}
(e.g. 501) falls through to the unclassified-status branch: exactly one
attempt, no sleep, terminal `"API error: ..."`. -/
theorem c4_other_5xx_terminal {α : Type} (att : Nat → Attempt α)
    (jit : Nat → ℚ) (ep uid : String) (w : World α) (clk d : ℚ)
    (code : Nat) (ra : Option Nat) (b : α) (tx : String)
    (hatt : att 0 = ⟨d, HttpOutcome.status code ra b tx⟩)
    (h5 : 500 ≤ code) (hnotin : code ∉ ([500, 502, 503, 504] : List Nat))
    (hrl : w.rate_limiter.lookup (rlKey uid ep) = none) :
    let out := make_request_with_retry att jit ep uid w clk
    countAttempts out.events = 1 ∧ countSleeps out.events = 0
      ∧ out.result
          = (none, some ("API error: " ++ toString code ++ " - " ++ tx)) := by
  intro out
  have hadm : (pruneWindow (curDq w uid ep) clk).length < 60 := by
    simp [curDq, hrl, pruneWindow]
  have h200 : code ≠ 200 := by omega
  have h429 : code ≠ 429 := by omega
  have h401 : code ≠ 401 := by omega
  have h404 : code ≠ 404 := by omega
  have h1 := retryGo_other_status att jit ep uid 0 maxRetriesC w clk none d
      code ra b tx hadm hatt h200 h429 hnotin h401 h404
  show countAttempts out.events = 1 ∧ _
  simp only [out, make_request_with_retry, h1, finishFailure, track_api_call]
  simp [countAttempts, countSleeps]

/-- C4 (amended), part 3 — the earlier revision's `fetch_property_data`
retries every status ≥ 500 but its loop is `range(max_retries)`: exactly
`max_retries = 3` attempts in total (not 4), sleeping 1 s then 2 s, ending
with `None`. -/
theorem c4_fpd_three_attempts {α : Type} (att : Nat → Attempt α) (clk : ℚ)
    (d : Nat → ℚ) (c : Nat → Nat) (ra : Nat → Option Nat) (b : Nat → α)
    (tx : Nat → String)
    (hst : ∀ n, att n = ⟨d n, HttpOutcome.status (c n) (ra n) (b n) (tx n)⟩)
    (h5 : ∀ n, 500 ≤ c n) :
    let out := fetch_property_data att clk
    out.2.2 = [Event.httpAttempt, Event.sleep 1, Event.httpAttempt,
        Event.sleep 2, Event.httpAttempt]
      ∧ countAttempts out.2.2 = fpdMaxRetries
      ∧ out.1 = none := by
  intro out
  have f1 : fpdGo att 0 fpdMaxRetries 1 clk = _ :=
    fpdGo_5xx_retry att 0 2 1 clk (d 0) (c 0) (ra 0) (b 0) (tx 0) (hst 0)
      (h5 0) (by norm_num [fpdMaxRetries])
  have f2 : fpdGo att (0 + 1) 2 (1 * 2) (clk + d 0 + 1) = _ :=
    fpdGo_5xx_retry att (0 + 1) 1 (1 * 2) (clk + d 0 + 1) (d (0 + 1))
      (c (0 + 1)) (ra (0 + 1)) (b (0 + 1)) (tx (0 + 1)) (hst (0 + 1))
      (h5 (0 + 1)) (by norm_num [fpdMaxRetries])
  have f3 : fpdGo att (0 + 1 + 1) 1 (1 * 2 * 2)
      (clk + d 0 + 1 + d (0 + 1) + 1 * 2) = _ :=
    fpdGo_5xx_final att (0 + 1 + 1) 0 (1 * 2 * 2)
      (clk + d 0 + 1 + d (0 + 1) + 1 * 2) (d (0 + 1 + 1)) (c (0 + 1 + 1))
      (ra (0 + 1 + 1)) (b (0 + 1 + 1)) (tx (0 + 1 + 1)) (hst (0 + 1 + 1))
      (h5 (0 + 1 + 1)) (by norm_num [fpdMaxRetries])
  show out.2.2 = _ ∧ _
  simp only [out, fetch_property_data, f1, f2, f3]
  simp [countAttempts, fpdMaxRetries]

/-- C4 (amended): the enhanced client's retryable server statuses are
exactly {500, 502, 503, 504}; for those it performs `max_retries + 1 = 4`
attempts with backoff sleeps between and a terminal
`"Server error: {code}"`, while any other 5xx (e.g. 501) is terminal after
exactly one attempt with an unclassified API error; and the earlier
revision's `fetch_property_data` retries every status ≥ 500 but makes only
`max_retries = 3` attempts in total. -/
theorem c4_retry_termination :
    (∀ (α : Type) (att : Nat → Attempt α) (jit : Nat → ℚ) (ep uid : String)
        (w : World α) (clk : ℚ) (d : Nat → ℚ) (c : Nat → Nat)
        (ra : Nat → Option Nat) (b : Nat → α) (tx : Nat → String),
      (∀ n, att n = ⟨d n, HttpOutcome.status (c n) (ra n) (b n) (tx n)⟩) →
      (∀ n, c n ∈ ([500, 502, 503, 504] : List Nat)) →
      w.rate_limiter.lookup (rlKey uid ep) = none →
      let out := make_request_with_retry att jit ep uid w clk
      out.events = [Event.rateCheck true, Event.httpAttempt,
          Event.sleep (calculate_backoff_delay 0 baseDelayC (jit 0)),
          Event.rateCheck true, Event.httpAttempt,
          Event.sleep (calculate_backoff_delay 1 baseDelayC (jit 1)),
          Event.rateCheck true, Event.httpAttempt,
          Event.sleep (calculate_backoff_delay 2 baseDelayC (jit 2)),
          Event.rateCheck true, Event.httpAttempt, Event.recordUsage]
        ∧ countAttempts out.events = maxRetriesC + 1
        ∧ countSleeps out.events = maxRetriesC
        ∧ out.result = (none, some ("Server error: " ++ toString (c 3))))
    ∧ (∀ (α : Type) (att : Nat → Attempt α) (jit : Nat → ℚ)
        (ep uid : String) (w : World α) (clk d : ℚ) (code : Nat)
        (ra : Option Nat) (b : α) (tx : String),
      att 0 = ⟨d, HttpOutcome.status code ra b tx⟩ → 500 ≤ code →
      code ∉ ([500, 502, 503, 504] : List Nat) →
      w.rate_limiter.lookup (rlKey uid ep) = none →
      let out := make_request_with_retry att jit ep uid w clk
      countAttempts out.events = 1 ∧ countSleeps out.events = 0
        ∧ out.result
            = (none, some ("API error: " ++ toString code ++ " - " ++ tx)))
    ∧ (∀ (α : Type) (att : Nat → Attempt α) (clk : ℚ) (d : Nat → ℚ)
        (c : Nat → Nat) (ra : Nat → Option Nat) (b : Nat → α)
        (tx : Nat → String),
      (∀ n, att n = ⟨d n, HttpOutcome.status (c n) (ra n) (b n) (tx n)⟩) →
      (∀ n, 500 ≤ c n) →
      let out := fetch_property_data att clk
      out.2.2 = [Event.httpAttempt, Event.sleep 1, Event.httpAttempt,
          Event.sleep 2, Event.httpAttempt]
        ∧ countAttempts out.2.2 = fpdMaxRetries
        ∧ out.1 = none) :=
  ⟨fun α att jit ep uid w clk d c ra b tx hst hcode hrl =>
      c4_enhanced_all_5xx att jit ep uid w clk d c ra b tx hst hcode hrl,
   fun α att jit ep uid w clk d code ra b tx hatt h5 hnotin hrl =>
      c4_other_5xx_terminal att jit ep uid w clk d code ra b tx hatt h5
        hnotin hrl,
   fun α att clk d c ra b tx hst h5 =>
      c4_fpd_three_attempts att clk d c ra b tx hst h5⟩

/-- C4 witness: a concrete all-500 run of the enhanced client from a fresh
state makes exactly 4 attempts and ends with `"Server error: 500"`. -/
theorem c4_witness :
    let out := make_request_with_retry
        (fun _ => ⟨1, HttpOutcome.status 500 none (0 : ℕ) "boom"⟩)
        (fun _ => 1/5) "properties" "u" World.empty 0
    out.events = [Event.rateCheck true, Event.httpAttempt,
        Event.sleep (calculate_backoff_delay 0 baseDelayC ((1 : ℚ)/5)),
        Event.rateCheck true, Event.httpAttempt,
        Event.sleep (calculate_backoff_delay 1 baseDelayC ((1 : ℚ)/5)),
        Event.rateCheck true, Event.httpAttempt,
        Event.sleep (calculate_backoff_delay 2 baseDelayC ((1 : ℚ)/5)),
        Event.rateCheck true, Event.httpAttempt, Event.recordUsage]
      ∧ countAttempts out.events = maxRetriesC + 1
      ∧ countSleeps out.events = maxRetriesC
      ∧ out.result = (none, some ("Server error: " ++ toString 500)) :=
  c4_retry_termination.1 ℕ _ _ "properties" "u" World.empty 0 (fun _ => 1)
    (fun _ => 500) (fun _ => none) (fun _ => 0) (fun _ => "boom")
    (fun n => rfl) (fun n => List.mem_cons_self _ _) rfl

/-- C4 counterexample: a 501 on every attempt gives exactly 1 attempt (not
`maxRetries + 1`) on the enhanced client, and an all-500 upstream gives the
earlier revision's `fetch_property_data` exactly 3 attempts (not 4). -/
theorem c4_counterexample :
    (let out := make_request_with_retry
        (fun _ => ⟨1, HttpOutcome.status 501 none (0 : ℕ) "uh"⟩)
        (fun _ => 1/5) "properties" "u" World.empty 0
     countAttempts out.events = 1 ∧ (1 : ℕ) ≠ maxRetriesC + 1
       ∧ out.result = (none, some "API error: 501 - uh"))
    ∧ (let out2 := fetch_property_data
        (fun _ => ⟨1, HttpOutcome.status 500 none (0 : ℕ) ""⟩) 0
       countAttempts out2.2.2 = 3 ∧ (3 : ℕ) ≠ maxRetriesC + 1) := by
  with_unfolding_all decide

/-! ## Claim C3 — rate-limit boundedness -/

/-- On a sorted deque, the front-pruning loop removes exactly the timestamps
older than the window. -/
theorem dropWhile_lt_eq_filter (c : ℚ) (l : List ℚ)
    (hl : List.Sorted (· ≤ ·) l) :
    l.dropWhile (fun t => decide (t < c))
      = l.filter (fun t => decide (c ≤ t)) := by
  induction l with
  | nil => rfl
  | cons x t ih =>
    have hs : List.Sorted (· ≤ ·) t := hl.of_cons
    by_cases hx : x < c
    · simp [List.dropWhile_cons, List.filter_cons, hx, not_le.mpr hx, ih hs]
    · have hcx : c ≤ x := not_lt.mp hx
      have hall : t.filter (fun y => decide (c ≤ y)) = t :=
        List.filter_eq_self.mpr (fun a ha => by
          simpa using le_trans hcx (List.rel_of_sorted_cons hl a ha))
      simp [List.dropWhile_cons, hx, List.filter_cons, hcx, hall]

/-- Sorted version of the pruning loop. -/
theorem pruneWindow_sorted_eq_filter (dq : List ℚ) (now : ℚ)
    (h : List.Sorted (· ≤ ·) dq) :
    pruneWindow dq now = dq.filter (fun t => decide (now - 60 ≤ t)) :=
  dropWhile_lt_eq_filter (now - 60) dq h

/-- Dropping a prefix that fails `q` anyway does not change a `q`-filter. -/
theorem filter_dropWhile_of_imp {γ : Type} (p q : γ → Bool)
    (h : ∀ x, p x = true → q x = false) (l : List γ) :
    (l.dropWhile p).filter q = l.filter q := by
  induction l with
  | nil => rfl
  | cons x t ih =>
    by_cases hp : p x = true
    · simp [List.dropWhile_cons, hp, h x hp, List.filter_cons, ih]
    · simp [List.dropWhile_cons, hp]

/-- Unfolding `rlRun` over a final call. -/
theorem rlRun_append (limit : Nat) (dq : List ℚ) (ts : List ℚ) (u : ℚ) :
    rlRun limit dq (ts ++ [u])
      = ((checkRateLimitDeque (rlRun limit dq ts).1 u limit).2,
         (rlRun limit dq ts).2
           ++ (if (checkRateLimitDeque (rlRun limit dq ts).1 u limit).1
               then [u] else [])) := by
  induction ts generalizing dq with
  | nil => simp [rlRun]
  | cons t ts ih => simp [rlRun, ih]

/-- Main invariant of a sequence of admission checks on one key, starting
from a fresh (empty) window, with non-decreasing call times: the final
deque and the admitted timestamps are sorted; admitted timestamps come from
the calls; pruning the final deque at any later instant leaves exactly the
admitted timestamps still inside the window; and no trailing 60-second
window ever holds more than `limit` admitted timestamps. -/
theorem rlRun_inv (limit : Nat) (ts : List ℚ)
    (hts : List.Sorted (· ≤ ·) ts) :
    List.Sorted (· ≤ ·) (rlRun limit [] ts).1
      ∧ List.Sorted (· ≤ ·) (rlRun limit [] ts).2
      ∧ (∀ x ∈ (rlRun limit [] ts).2, x ∈ ts)
      ∧ (∀ u, (∀ t ∈ ts, t ≤ u) →
          pruneWindow (rlRun limit [] ts).1 u
            = (rlRun limit [] ts).2.filter (fun x => decide (u - 60 ≤ x)))
      ∧ (∀ T, ((rlRun limit [] ts).2.filter
            (fun x => decide (T - 60 ≤ x) && decide (x ≤ T))).length
          ≤ limit) := by
  induction ts using List.reverseRecOn with
  | nil =>
    refine ⟨by simp [rlRun], by simp [rlRun], by simp [rlRun], ?_,
      by simp [rlRun]⟩
    intro u hu
    simp [rlRun, pruneWindow]
  | append_singleton ts u ih =>
    have hpw : List.Pairwise (· ≤ ·) (ts ++ [u]) := hts
    rw [List.pairwise_append] at hpw
    have hts2 : List.Sorted (· ≤ ·) ts := hpw.1
    have hle : ∀ t ∈ ts, t ≤ u := fun t ht => hpw.2.2 t ht u (by simp)
    obtain ⟨hD, hA, hmem, hprune, hbnd⟩ := ih hts2
    have hP : pruneWindow (rlRun limit [] ts).1 u
        = (rlRun limit [] ts).2.filter (fun x => decide (u - 60 ≤ x)) :=
      hprune u hle
    have hPsorted : List.Sorted (· ≤ ·)
        (pruneWindow (rlRun limit [] ts).1 u) := by
      rw [hP]; exact hA.sublist (List.filter_sublist _)
    have hPmem : ∀ x ∈ pruneWindow (rlRun limit [] ts).1 u, x ≤ u := by
      rw [hP]; intro x hx
      exact hle x (hmem x (List.mem_of_mem_filter hx))
    -- the filter over the pruned deque at a later instant v ≥ u
    have hPfil : ∀ v, u ≤ v →
        (pruneWindow (rlRun limit [] ts).1 u).filter
            (fun x => decide (v - 60 ≤ x))
          = (rlRun limit [] ts).2.filter (fun x => decide (v - 60 ≤ x)) := by
      intro v huv
      rw [hP, List.filter_filter]
      refine List.filter_congr (fun x hx => ?_)
      by_cases hvx : v - 60 ≤ x
      · have : u - 60 ≤ x := le_trans (by linarith) hvx
        simp [hvx, this]
      · simp [hvx]
    rw [rlRun_append]
    by_cases hadm : limit ≤ (pruneWindow (rlRun limit [] ts).1 u).length
    · have hstep : checkRateLimitDeque (rlRun limit [] ts).1 u limit
          = (false, pruneWindow (rlRun limit [] ts).1 u) := by
        unfold checkRateLimitDeque
        rw [if_pos hadm]
      simp only [hstep, Bool.false_eq_true, if_false, List.append_nil]
      refine ⟨hPsorted, hA, fun x hx => by simp [hmem x hx], ?_, hbnd⟩
      intro v hv
      have huv : u ≤ v := hv u (by simp)
      rw [pruneWindow_sorted_eq_filter _ _ hPsorted, hPfil v huv]
    · have hstep : checkRateLimitDeque (rlRun limit [] ts).1 u limit
          = (true, pruneWindow (rlRun limit [] ts).1 u ++ [u]) := by
        unfold checkRateLimitDeque
        rw [if_neg hadm]
      simp only [hstep, if_true]
      have hPapp : List.Sorted (· ≤ ·)
          (pruneWindow (rlRun limit [] ts).1 u ++ [u]) := by
        show List.Pairwise (· ≤ ·) _
        rw [List.pairwise_append]
        exact ⟨hPsorted, List.sorted_singleton u, by
          intro a ha b hb
          simp only [List.mem_singleton] at hb
          subst hb
          exact hPmem a ha⟩
      have hAapp : List.Sorted (· ≤ ·) ((rlRun limit [] ts).2 ++ [u]) := by
        show List.Pairwise (· ≤ ·) _
        rw [List.pairwise_append]
        exact ⟨hA, List.sorted_singleton u, by
          intro a ha b hb
          simp only [List.mem_singleton] at hb
          subst hb
          exact hle a (hmem a ha)⟩
      refine ⟨hPapp, hAapp, ?_, ?_, ?_⟩
      · intro x hx
        rcases List.mem_append.mp hx with hx1 | hx1
        · simp [hmem x hx1]
        · simp only [List.mem_singleton] at hx1
          simp [hx1]
      · intro v hv
        have huv : u ≤ v := hv u (by simp)
        rw [pruneWindow_sorted_eq_filter _ _ hPapp]
        simp only [List.filter_append]
        rw [hPfil v huv]
      · intro T
        rw [List.filter_append, List.length_append]
        by_cases hw : (decide (T - 60 ≤ u) && decide (u ≤ T)) = true
        · have hu2 : T - 60 ≤ u ∧ u ≤ T := by simpa using hw
          have hlt : (pruneWindow (rlRun limit [] ts).1 u).length < limit :=
            not_le.mp hadm
          have hsub : List.Sublist
              ((rlRun limit [] ts).2.filter
                (fun x => decide (T - 60 ≤ x) && decide (x ≤ T)))
              ((rlRun limit [] ts).2.filter
                (fun x => decide (u - 60 ≤ x))) := by
            refine List.monotone_filter_right _ (fun a ha => ?_)
            have ha2 : T - 60 ≤ a ∧ a ≤ T := by simpa using ha
            have : u - 60 ≤ a := by
              have := hu2.2
              linarith [ha2.1]
            simpa using this
          have hlen2 := hsub.length_le
          rw [← hP] at hlen2
          have hone : (List.filter
              (fun x => decide (T - 60 ≤ x) && decide (x ≤ T)) [u]).length
                ≤ 1 := le_trans (List.length_filter_le _ _) (by simp)
          omega
        · have hzero : (List.filter
              (fun x => decide (T - 60 ≤ x) && decide (x ≤ T)) [u]) = [] := by
            simp only [List.filter_cons, hw]
            rfl
          rw [hzero]
          simpa using hbnd T

/-- C3: (1) starting from a fresh key, for any non-decreasing sequence of
`check_rate_limit` call times and any instant `T`, at most `limit` admitted
timestamps lie in the trailing 60-second window `[T - 60, T]`; (2) a denied
call only prunes — it appends nothing, and the in-window content of the
deque is unchanged; (3) the admission decision is computed from the pruned
deque: it admits exactly when fewer than `limit` timestamps survive
pruning. -/
theorem c3_rate_limit_bounded :
    (∀ (limit : Nat) (ts : List ℚ), List.Sorted (· ≤ ·) ts →
       ∀ T, (((rlRun limit [] ts).2).filter
           (fun x => decide (T - 60 ≤ x) && decide (x ≤ T))).length ≤ limit)
    ∧ (∀ (dq : List ℚ) (now : ℚ) (limit : Nat),
        (checkRateLimitDeque dq now limit).1 = false →
          (checkRateLimitDeque dq now limit).2 = pruneWindow dq now
            ∧ (checkRateLimitDeque dq now limit).2.filter
                (fun x => decide (now - 60 ≤ x))
              = dq.filter (fun x => decide (now - 60 ≤ x)))
    ∧ (∀ (dq : List ℚ) (now : ℚ) (limit : Nat),
        (checkRateLimitDeque dq now limit).1 = true
          ↔ (pruneWindow dq now).length < limit) := by
  refine ⟨fun limit ts hts T => (rlRun_inv limit ts hts).2.2.2.2 T,
          fun dq now limit h => ?_, fun dq now limit => ?_⟩
  · unfold checkRateLimitDeque at h ⊢
    by_cases hc : limit ≤ (pruneWindow dq now).length
    · rw [if_pos hc]
      refine ⟨rfl, ?_⟩
      exact filter_dropWhile_of_imp _ _ (fun x hx => by
        simp only [decide_eq_true_eq] at hx
        simp only [decide_eq_false_iff_not]
        linarith) dq
    · rw [if_neg hc] at h
      exact absurd h (by simp)
  · unfold checkRateLimitDeque
    by_cases hc : limit ≤ (pruneWindow dq now).length
    · rw [if_pos hc]
      exact iff_of_false (by simp) (by omega)
    · rw [if_neg hc]
      exact iff_of_true rfl (not_le.mp hc)

/-- C3 witness: three calls at time 0 against quota 2 admit at most 2 in the
window ending at 0. -/
theorem c3_witness :
    ((rlRun 2 [] [0, 0, 0]).2.filter
        (fun x => decide ((0 : ℚ) - 60 ≤ x) && decide (x ≤ 0))).length ≤ 2 :=
  c3_rate_limit_bounded.1 2 [0, 0, 0] (by with_unfolding_all decide) 0

end TesterLive
